import Mathlib

set_option maxRecDepth 100000

/-!
Verification of the paginated access/caching engine of the `nekosapi` client
library (`nekosapi/pagination.py` and `nekosapi/ratelimiting.py`).

The Python code is shallowly embedded:

* `PaginatedResult._get_best_page` (the page-window planner) becomes
  `getBestPage` / `pyGetBestPage`.  Each Python `while` loop becomes a
  structurally recursive function on an explicit fuel argument; the fuel
  passed by the caller is an upper bound, proved or argued below, on the
  number of iterations the Python loop performs, so the embedded function
  computes the same result as the source loop.
* `self._loaded_items` (a Python dict keyed by absolute index) becomes an
  association list `List (ℤ × α)` with first-match lookup (`pyGet`) and
  overwrite-or-append insertion (`dictInsert`), which is exactly the
  observable behaviour of a dict whose values are never `None`.
* `__getitem__` (integer key), `__getitem__` (slice key), `__next__` and the
  `count` property become `getItem`, `getSlice`, `nextItem` and `countOp`,
  each returning the result (with exceptions as `Except` errors), the new
  object state, and the number of HTTP fetches dispatched.  The HTTP layer
  (`requests.get` + `raise_for_status` + hydration via `TYPE_TO_CLASS`) is
  the external collaborator `Fetcher`: offset → limit → `Except` of a
  payload `{data, meta.pagination.count}`.
* `prevent_ratelimit` becomes the state machine `gateStep` / `gateRun` over
  an integer clock measured in milliseconds.

Python integers are embedded as `ℤ` (list positions that the source obtains
from `list.index`/`len` are `ℕ` coerced to `ℤ` where the source mixes them
into index arithmetic, faithfully reproducing that mixing).
-/

/-! ### The page-window planner (`PaginatedResult._get_best_page`) -/

/-- First `while` loop of `_get_best_page` (the gap between the neighbours
exceeds `page_size`, so the window is shrunk):

    while next_item - prev_item > self.page_size:
        if next_item != item_index:
            next_item -= 1
        if next_item - prev_item > self.page_size:
            if prev_item != item_index:
                prev_item += 1

Note the source compares the *values* `next_item` / `prev_item` with the
*position* `item_index`; the embedding reproduces this.  The fuel
`(next - prev - P).toNat` bounds the iteration count: for `0 ≤ P` every
iteration decreases `next - prev` by at least one (proved in
`shrinkLoop_gap_le`), and the loop stops once `next - prev ≤ P`.  (For
`P < 0` the source can loop forever; the embedding then stops at fuel 0, a
case no claim exercises.) -/
def shrinkLoop : ℕ → ℤ → ℤ → ℤ → ℤ → ℤ × ℤ
  | 0, _, _, prev, next => (prev, next)
  | fuel + 1, idx, P, prev, next =>
    if P < next - prev then
      let next' := if next ≠ idx then next - 1 else next
      let prev' := if P < next' - prev ∧ prev ≠ idx then prev + 1 else prev
      shrinkLoop fuel idx P prev' next'
    else (prev, next)

/-- Second `while` loop of `_get_best_page` (the gap is smaller than
`page_size`, so the window is grown):

    while next_item - prev_item < self.page_size:
        next_item += 1
        if next_item - prev_item < self.page_size:
            if prev_item > 0:
                prev_item -= 1

Every iteration increases `next - prev` by at least one, so the fuel
`(P - (next - prev)).toNat` bounds the iteration count. -/
def growLoop : ℕ → ℤ → ℤ → ℤ → ℤ × ℤ
  | 0, _, prev, next => (prev, next)
  | fuel + 1, P, prev, next =>
    if next - prev < P then
      let next' := next + 1
      let prev' := if next' - prev < P ∧ 0 < prev then prev - 1 else prev
      growLoop fuel P prev' next'
    else (prev, next)

/-- Third `while` loop of `_get_best_page` (slide the window up off cached
lower boundaries):

    while self._loaded_items.get(prev_item, None) is not None:
        prev_item += 1
        next_item += 1

Each iteration consumes a distinct cached key (`prev` strictly increases),
so `keys.length` iterations suffice when `keys` has no duplicates, which
holds for every key list a `dict` can produce. -/
def skipUp (keys : List ℤ) : ℕ → ℤ → ℤ → ℤ × ℤ
  | 0, prev, next => (prev, next)
  | fuel + 1, prev, next =>
    if prev ∈ keys then skipUp keys fuel (prev + 1) (next + 1)
    else (prev, next)

/-- Fourth `while` loop of `_get_best_page` (slide the window down off cached
upper boundaries):

    while self._loaded_items.get(next_item, None) is not None:
        if prev_item != 0:
            prev_item -= 1
        next_item -= 1

Each iteration consumes a distinct cached key (`next` strictly decreases),
so `keys.length` iterations suffice (see `slideDown_snd_not_mem`). -/
def slideDown (keys : List ℤ) : ℕ → ℤ → ℤ → ℤ × ℤ
  | 0, prev, next => (prev, next)
  | fuel + 1, prev, next =>
    if next ∈ keys then
      slideDown keys fuel (if prev ≠ 0 then prev - 1 else prev) (next - 1)
    else (prev, next)

/-- `loaded_items = list(self._loaded_items.keys()) + [item]; loaded_items.sort()` -/
def sortedWithItem (keys : List ℤ) (item : ℤ) : List ℤ :=
  List.insertionSort (· ≤ ·) (keys ++ [item])

/-- The sizing and boundary-adjustment phases of `_get_best_page`, starting
from the neighbour pair `(prev, next)` and the sorted position `idx` of the
requested item, and ending with the source's `return next_item - prev_item,
prev_item`, i.e. the `(limit, offset)` pair. -/
def pageFromBounds (keys : List ℤ) (P idx prev next : ℤ) : ℤ × ℤ :=
  let sized :=
    if P < next - prev then shrinkLoop (next - prev - P).toNat idx P prev next
    else if next - prev < P then growLoop (P - (next - prev)).toNat P prev next
    else (prev, next)
  let stepped := skipUp keys keys.length sized.1 sized.2
  let slid := slideDown keys keys.length stepped.1 stepped.2
  (slid.2 - slid.1, slid.1)

/-- `PaginatedResult._get_best_page` minus its initial `AlreadyLoadedException`
guard.  Returns `(limit, offset)`.

    loaded_items = list(self._loaded_items.keys()) + [item]
    loaded_items.sort()
    item_index = loaded_items.index(item)
    prev_item = loaded_items[item_index - 1] if item_index != 0 else item_index
    next_item = (loaded_items[item_index + 1]
                 if item_index != len(loaded_items) - 1 else item_index)

When `item_index` is used as a *value* (the `else` branches), the source
falls back to the position, not the requested index; the embedding keeps
this behaviour. -/
def getBestPage (keys : List ℤ) (P item : ℤ) : ℤ × ℤ :=
  let loaded := sortedWithItem keys item
  let idx := loaded.indexOf item
  pageFromBounds keys P (idx : ℤ)
    (if idx ≠ 0 then loaded.getD (idx - 1) 0 else (idx : ℤ))
    (if idx ≠ loaded.length - 1 then loaded.getD (idx + 1) 0 else (idx : ℤ))

/-- `_get_best_page` with its guard: a cached item raises
`AlreadyLoadedException` (embedded as `none`). -/
def pyGetBestPage (keys : List ℤ) (P item : ℤ) : Option (ℤ × ℤ) :=
  if item ∈ keys then none else some (getBestPage keys P item)

-- Scenario checks (scratch)
example : getBestPage [] 50 0 = (50, 0) := rfl
example : getBestPage [] 50 57 = (50, 0) := rfl
example : getBestPage ((List.range 50).map Int.ofNat) 50 57 = (50, 50) := rfl
example :
    getBestPage (((List.range 10).map Int.ofNat) ++
      ((List.range 10).map (fun n => (60 : ℤ) + n))) 50 35 = (50, 9) := rfl

/-! ### The sparse index cache (`self._loaded_items`)

A Python `dict` with integer keys and never-`None` values, embedded as an
association list in insertion order. -/

/-- `self._loaded_items.get(k, None)`: first-match association lookup. -/
def pyGet {α : Type} : List (ℤ × α) → ℤ → Option α
  | [], _ => none
  | (k', v) :: rest, k => if k = k' then some v else pyGet rest k

/-- `self._loaded_items[k] = v`: overwrite the entry if the key is present
(keeping its position, as a dict does), otherwise append it. -/
def dictInsert {α : Type} (l : List (ℤ × α)) (k : ℤ) (v : α) : List (ℤ × α) :=
  if l.any (fun p => p.1 = k) then l.map (fun p => if p.1 = k then (k, v) else p)
  else l ++ [(k, v)]

/-- `list(self._loaded_items.keys())` (in insertion order). -/
def dictKeys {α : Type} (l : List (ℤ × α)) : List ℤ :=
  l.map Prod.fst

/-- The hydration-and-store loop shared by all fetching paths:

    n = 0
    for item in r.json()["data"]:
        self._loaded_items[offset + n] = TYPE_TO_CLASS[...](...)
        n += 1

The hydrated objects themselves are opaque values of type `α`. -/
def storeData {α : Type} (l : List (ℤ × α)) (off : ℤ) : List α → List (ℤ × α)
  | [] => l
  | x :: xs => storeData (dictInsert l off x) (off + 1) xs

/-! ### Collaborators and object state -/

/-- The parsed response payload the engine reads:
`r.json()["data"]` and `r.json()["meta"]["pagination"]["count"]`. -/
structure FetchResult (α : Type) where
  data : List α
  count : ℤ
deriving DecidableEq

/-- The external HTTP collaborator: `requests.get` with
`page[offset]` / `page[limit]` query parameters followed by
`r.raise_for_status()`.  A non-success status is `Except.error`. -/
def Fetcher (α : Type) : Type :=
  ℤ → ℤ → Except Unit (FetchResult α)

/-- The mutable state of one `PaginatedResult` object: `_loaded_items`,
`_count`, `_iter_current` and `page_size`.  (`self.params` is also mutated
by each request, but it never feeds back into cache, planner, or results,
so it is not part of the observable state.) -/
structure PagState (α : Type) where
  loaded : List (ℤ × α)
  count : Option ℤ
  iterCurrent : ℤ
  pageSize : ℤ
deriving DecidableEq

/-- The state `__init__` builds: empty cache, unknown count, cursor 0. -/
def initState {α : Type} (P : ℤ) : PagState α :=
  { loaded := [], count := none, iterCurrent := 0, pageSize := P }

/-- Exceptions that can escape the access paths: a failed HTTP fetch
(`requests.HTTPError` from `raise_for_status`), a failed final cache lookup
(`KeyError` on `self._loaded_items[...]`), and `AlreadyLoadedException`
from the planner guard. -/
inductive PagErr : Type
  | upstream
  | keyError
  | alreadyLoaded
deriving DecidableEq

/-! ### The access operations -/

/-- `PaginatedResult.__getitem__` with an integer key.  Returns the result
(or the escaping exception), the state after the call, and the number of
fetches dispatched. -/
def getItem {α : Type} (f : Fetcher α) (s : PagState α) (key : ℤ) :
    Except PagErr α × PagState α × ℕ :=
  match pyGet s.loaded key with
  | some v => (Except.ok v, s, 0)
  | none =>
    match pyGetBestPage (dictKeys s.loaded) s.pageSize key with
    | none => (Except.error PagErr.alreadyLoaded, s, 0)
    | some (limit, offset) =>
      match f offset limit with
      | Except.error _ => (Except.error PagErr.upstream, s, 1)
      | Except.ok r =>
        let loaded' := storeData s.loaded offset r.data
        let s' := { s with loaded := loaded', count := some r.count }
        match pyGet loaded' key with
        | some v => (Except.ok v, s', 1)
        | none => (Except.error PagErr.keyError, s', 1)

/-- `PaginatedResult.__next__`.  Identical to the integer path but keyed by
the cursor `_iter_current`, which is incremented only on success (every
exception propagates before the `self._iter_current += 1` line). -/
def nextItem {α : Type} (f : Fetcher α) (s : PagState α) :
    Except PagErr α × PagState α × ℕ :=
  match pyGet s.loaded s.iterCurrent with
  | some v => (Except.ok v, { s with iterCurrent := s.iterCurrent + 1 }, 0)
  | none =>
    match pyGetBestPage (dictKeys s.loaded) s.pageSize s.iterCurrent with
    | none => (Except.error PagErr.alreadyLoaded, s, 0)
    | some (limit, offset) =>
      match f offset limit with
      | Except.error _ => (Except.error PagErr.upstream, s, 1)
      | Except.ok r =>
        let loaded' := storeData s.loaded offset r.data
        let s' := { s with loaded := loaded', count := some r.count }
        match pyGet loaded' s.iterCurrent with
        | some v => (Except.ok v, { s' with iterCurrent := s.iterCurrent + 1 }, 1)
        | none => (Except.error PagErr.keyError, s', 1)

/-- `range(start, stop, step)` for a positive step, as a structurally
recursive function; `(stop - start).toNat` bounds the element count when
`1 ≤ step`.  (The slice path only ever builds ranges with positive step:
the stride defaults to 1 and the chunk stride is `page_size`.) -/
def pyRangeAux : ℕ → ℤ → ℤ → ℤ → List ℤ
  | 0, _, _, _ => []
  | fuel + 1, start, stop, step =>
    if start < stop then start :: pyRangeAux fuel (start + step) stop step
    else []

/-- `range(start, stop, step)`; empty for a non-positive step (the source
never reaches that case on the slice path). -/
def pyRange (start stop step : ℤ) : List ℤ :=
  if 0 < step then pyRangeAux (stop - start).toNat start stop step else []

/-- The fetch loop of the slice path:

    for offset in offsets:
        ... requests.get(... page[limit]=self.page_size, page[offset]=offset)
        r.raise_for_status()
        ... store ...; self._count = ...

A failure aborts the loop after the chunks already fetched were stored. -/
def sliceFetches {α : Type} (f : Fetcher α) (s : PagState α) :
    List ℤ → Except PagErr Unit × PagState α × ℕ
  | [] => (Except.ok (), s, 0)
  | off :: rest =>
    match f off s.pageSize with
    | Except.error _ => (Except.error PagErr.upstream, s, 1)
    | Except.ok r =>
      let s' := { s with loaded := storeData s.loaded off r.data, count := some r.count }
      match sliceFetches f s' rest with
      | (res, s'', n) => (res, s'', n + 1)

/-- `[self._loaded_items[i] for i in sliced_indexes]`; `none` embeds the
`KeyError` raised when some requested index was never stored. -/
def collectItems {α : Type} (l : List (ℤ × α)) : List ℤ → Option (List α)
  | [] => some []
  | i :: rest =>
    match pyGet l i with
    | none => none
    | some v => (collectItems l rest).map (v :: ·)

/-- `PaginatedResult.__getitem__` with a slice key `start:stop:step`:

    sliced_indexes = range(key.start, key.stop + 1, key.step if key.step else 1)
    needs_request = any index missing
    offsets = [key.start + offset for offset in
               range(0, len(sliced_indexes) + len(sliced_indexes) % self.page_size,
                     self.page_size)]
    ... fetch loop ...
    return [self._loaded_items[i] for i in sliced_indexes]

Note the source's `key.stop + 1`: the stop bound is treated inclusively.
The tail of the path after the fetch loop is split into `slicePost` below:
a failed chunk propagates the exception, a successful run returns
`[self._loaded_items[i] for i in sliced_indexes]` (with its possible
`KeyError`); the state is whatever the fetch loop left. -/
def slicePost {α : Type} (sliced : List ℤ)
    (pr : Except PagErr Unit × PagState α × ℕ) :
    Except PagErr (List α) × PagState α × ℕ :=
  match pr with
  | (Except.error e, s', n) => (Except.error e, s', n)
  | (Except.ok _, s', n) =>
    match collectItems s'.loaded sliced with
    | some items => (Except.ok items, s', n)
    | none => (Except.error PagErr.keyError, s', n)

/-- `PaginatedResult.__getitem__` with a slice key (see `slicePost`). -/
def getSlice {α : Type} (f : Fetcher α) (s : PagState α)
    (start stop : ℤ) (step : Option ℤ) :
    Except PagErr (List α) × PagState α × ℕ :=
  let stepv : ℤ :=
    match step with
    | none => 1
    | some v => if v = 0 then 1 else v
  let sliced := pyRange start (stop + 1) stepv
  if sliced.any (fun i => (pyGet s.loaded i).isNone) then
    let len : ℤ := sliced.length
    let offsets := (pyRange 0 (len + len % s.pageSize) s.pageSize).map (fun o => start + o)
    slicePost sliced (sliceFetches f s offsets)
  else
    match collectItems s.loaded sliced with
    | some items => (Except.ok items, s, 0)
    | none => (Except.error PagErr.keyError, s, 0)

/-- Exceptions that can escape the `count` property: a failed fetch, and the
`TypeError` of `list(...).sort()[0]` (`list.sort` returns `None`, so the
subscript raises whenever the cache is non-empty). -/
inductive CountErr : Type
  | upstream
  | typeError
deriving DecidableEq

/-- The `PaginatedResult.count` property.  With a known `_count` it returns
it with no fetch.  Otherwise: with an empty cache `first_loaded_item` is
`None`, so `offset = 0` and one fetch of `[0, page_size)` is made; with a
non-empty cache the expression `list(self._loaded_items.keys()).sort()[0]`
raises `TypeError` before any fetch. -/
def countOp {α : Type} (f : Fetcher α) (s : PagState α) :
    Except CountErr ℤ × PagState α × ℕ :=
  match s.count with
  | some c => (Except.ok c, s, 0)
  | none =>
    if s.loaded.length ≠ 0 then (Except.error CountErr.typeError, s, 0)
    else
      match f 0 s.pageSize with
      | Except.error _ => (Except.error CountErr.upstream, s, 1)
      | Except.ok r =>
        (Except.ok r.count,
          { s with loaded := storeData s.loaded 0 r.data, count := some r.count }, 1)

/-! ### The rate gate (`nekosapi/ratelimiting.py`)

Time is an integer count of milliseconds.  The module state is the global
`last_request`, initialised to `None`.  One call of the inner `sleep()` of
`prevent_ratelimit` is:

    if last_request:
        time.sleep(0.5 - (datetime.now() - last_request).total_seconds())
        last_request = datetime.now()

`last_request` is assigned *only inside* the branch guarded by
`last_request` being set, so the `None` branch neither sleeps nor records a
timestamp.  `time.sleep` raises `ValueError` on a negative argument. -/

/-- One gate call at wall-clock time `now`, given the current
`last_request`.  Returns the sleep duration and the new `last_request`, or
an error for `time.sleep`'s `ValueError`. -/
def gateStep (now : ℤ) (last : Option ℤ) : Except Unit (ℤ × Option ℤ) :=
  match last with
  | none => Except.ok (0, none)
  | some t =>
    let d := 500 - (now - t)
    if d < 0 then Except.error ()
    else Except.ok (d, some (now + d))

/-- A sequence of gate calls at the given wall-clock times, threading the
shared `last_request`; returns the sleep durations and the final state
(an exception aborts the run). -/
def gateRun (last : Option ℤ) : List ℤ → List ℤ × Option ℤ
  | [] => ([], last)
  | now :: rest =>
    match gateStep now last with
    | Except.error _ => ([], last)
    | Except.ok (d, last') =>
      match gateRun last' rest with
      | (ds, lf) => (d :: ds, lf)

/-! ### Concrete collaborators used by the scenario theorems -/

/-- A well-behaved upstream collection: the item at absolute index `k` is the
value `k.toNat`, every window is fully populated, and the reported total
count is 1000. -/
def gFetch : Fetcher ℕ :=
  fun off lim => Except.ok ⟨(pyRange off (off + lim) 1).map Int.toNat, 1000⟩

/-! ### Helper lemmas: the planner loops -/

/-- Counts the elements `≤ n` of a key list (used to bound the iteration
count of the fourth planner loop). -/
def countLe : List ℤ → ℤ → ℕ
  | [], _ => 0
  | k :: rest, n => (if k ≤ n then 1 else 0) + countLe rest n

theorem countLe_le_length (l : List ℤ) (n : ℤ) : countLe l n ≤ l.length := by
  induction l with
  | nil => simp [countLe]
  | cons k rest ih =>
    simp only [countLe, List.length_cons]
    split <;> omega

theorem one_le_countLe_of_mem {l : List ℤ} {a n : ℤ} (ha : a ∈ l) (han : a ≤ n) :
    1 ≤ countLe l n := by
  induction l with
  | nil => cases ha
  | cons k rest ih =>
    rcases List.mem_cons.mp ha with h | h
    · subst h
      simp only [countLe, if_pos han]
      omega
    · have := ih h
      simp only [countLe]
      split <;> omega

theorem countLe_mono_right (l : List ℤ) {m n : ℤ} (h : m ≤ n) :
    countLe l m ≤ countLe l n := by
  induction l with
  | nil => simp [countLe]
  | cons k rest ih =>
    simp only [countLe]
    by_cases hk : k ≤ m
    · rw [if_pos hk, if_pos (le_trans hk h)]
      omega
    · rw [if_neg hk]
      split <;> omega

theorem countLe_pred_lt_of_mem {l : List ℤ} {n : ℤ} (hn : n ∈ l) :
    countLe l (n - 1) < countLe l n := by
  induction l with
  | nil => cases hn
  | cons k rest ih =>
    rcases List.mem_cons.mp hn with h | h
    · subst h
      simp only [countLe, if_pos (le_refl n), if_neg (by omega : ¬ n ≤ n - 1)]
      have := countLe_mono_right rest (by omega : n - 1 ≤ n)
      omega
    · have h1 := ih h
      have h2 : (if k ≤ n - 1 then 1 else 0) ≤ (if k ≤ n then 1 else 0) := by
        split
        · rw [if_pos (by omega)]
        · split <;> omega
      simp only [countLe]
      omega

theorem shrinkLoop_gap_le : ∀ (fuel : ℕ) (idx P prev next : ℤ), 0 ≤ P →
    next - prev - P ≤ (fuel : ℤ) →
    (shrinkLoop fuel idx P prev next).2 - (shrinkLoop fuel idx P prev next).1 ≤ P
  | 0, idx, P, prev, next, _, hf => by
    simp only [shrinkLoop]
    omega
  | fuel + 1, idx, P, prev, next, hP, hf => by
    by_cases hgap : P < next - prev
    · by_cases hn : next = idx
      · have hp : prev ≠ idx := by
          intro h
          omega
        have hstep : shrinkLoop (fuel + 1) idx P prev next
            = shrinkLoop fuel idx P (prev + 1) next := by
          simp only [shrinkLoop, if_pos hgap, if_neg (not_not_intro hn),
            if_pos (And.intro hgap hp)]
        rw [hstep]
        exact shrinkLoop_gap_le fuel idx P (prev + 1) next hP (by omega)
      · by_cases hc : P < (next - 1) - prev ∧ prev ≠ idx
        · have hstep : shrinkLoop (fuel + 1) idx P prev next
              = shrinkLoop fuel idx P (prev + 1) (next - 1) := by
            simp only [shrinkLoop, if_pos hgap, if_pos hn, if_pos hc]
          rw [hstep]
          exact shrinkLoop_gap_le fuel idx P (prev + 1) (next - 1) hP (by omega)
        · have hstep : shrinkLoop (fuel + 1) idx P prev next
              = shrinkLoop fuel idx P prev (next - 1) := by
            simp only [shrinkLoop, if_pos hgap, if_pos hn, if_neg hc]
          rw [hstep]
          exact shrinkLoop_gap_le fuel idx P prev (next - 1) hP (by omega)
    · simp only [shrinkLoop, if_neg hgap]
      omega

theorem growLoop_gap_le : ∀ (fuel : ℕ) (P prev next : ℤ), next - prev ≤ P →
    (growLoop fuel P prev next).2 - (growLoop fuel P prev next).1 ≤ P
  | 0, P, prev, next, h => by
    simp only [growLoop]
    omega
  | fuel + 1, P, prev, next, h => by
    by_cases hgap : next - prev < P
    · by_cases hc : (next + 1) - prev < P ∧ 0 < prev
      · have hstep : growLoop (fuel + 1) P prev next
            = growLoop fuel P (prev - 1) (next + 1) := by
          simp only [growLoop, if_pos hgap, if_pos hc]
        rw [hstep]
        exact growLoop_gap_le fuel P (prev - 1) (next + 1) (by omega)
      · have hstep : growLoop (fuel + 1) P prev next
            = growLoop fuel P prev (next + 1) := by
          simp only [growLoop, if_pos hgap, if_neg hc]
        rw [hstep]
        exact growLoop_gap_le fuel P prev (next + 1) (by omega)
    · simp only [growLoop, if_neg hgap]
      omega

theorem growLoop_from_zero : ∀ (fuel : ℕ) (P next : ℤ), next ≤ P →
    P - next ≤ (fuel : ℤ) →
    growLoop fuel P 0 next = (0, P)
  | 0, P, next, h, hf => by
    simp only [growLoop]
    congr 1
    omega
  | fuel + 1, P, next, h, hf => by
    by_cases hgap : next - 0 < P
    · have hc : ¬((next + 1) - 0 < P ∧ (0 : ℤ) < 0) := by
        rintro ⟨_, h0⟩
        omega
      have hstep : growLoop (fuel + 1) P 0 next = growLoop fuel P 0 (next + 1) := by
        simp only [growLoop, if_pos hgap, if_neg hc]
      rw [hstep]
      exact growLoop_from_zero fuel P (next + 1) (by omega) (by omega)
    · simp only [growLoop, if_neg hgap]
      congr 1
      omega

theorem skipUp_gap : ∀ (fuel : ℕ) (keys : List ℤ) (prev next : ℤ),
    (skipUp keys fuel prev next).2 - (skipUp keys fuel prev next).1 = next - prev
  | 0, keys, prev, next => by
    simp [skipUp]
  | fuel + 1, keys, prev, next => by
    by_cases h : prev ∈ keys
    · simp only [skipUp, if_pos h]
      rw [skipUp_gap fuel keys (prev + 1) (next + 1)]
      omega
    · simp [skipUp, if_neg h]

theorem slideDown_gap_le : ∀ (fuel : ℕ) (keys : List ℤ) (prev next : ℤ),
    (slideDown keys fuel prev next).2 - (slideDown keys fuel prev next).1 ≤ next - prev
  | 0, keys, prev, next => by
    simp [slideDown]
  | fuel + 1, keys, prev, next => by
    by_cases h : next ∈ keys
    · by_cases hp : prev = 0
      · have hstep : slideDown keys (fuel + 1) prev next
            = slideDown keys fuel prev (next - 1) := by
          simp only [slideDown, if_pos h, if_neg (not_not_intro hp)]
        rw [hstep]
        have := slideDown_gap_le fuel keys prev (next - 1)
        omega
      · have hstep : slideDown keys (fuel + 1) prev next
            = slideDown keys fuel (prev - 1) (next - 1) := by
          simp only [slideDown, if_pos h, if_pos hp]
        rw [hstep]
        have := slideDown_gap_le fuel keys (prev - 1) (next - 1)
        omega
    · simp [slideDown, if_neg h]

theorem slideDown_snd_not_mem : ∀ (fuel : ℕ) (keys : List ℤ) (prev next : ℤ),
    countLe keys next ≤ fuel →
    (slideDown keys fuel prev next).2 ∉ keys
  | 0, keys, prev, next, hf => by
    simp only [slideDown]
    intro hmem
    have := one_le_countLe_of_mem hmem (le_refl next)
    omega
  | fuel + 1, keys, prev, next, hf => by
    by_cases h : next ∈ keys
    · simp only [slideDown, if_pos h]
      refine slideDown_snd_not_mem fuel keys _ (next - 1) ?_
      have := countLe_pred_lt_of_mem h
      omega
    · simp only [slideDown, if_neg h]
      exact h

/-- The sizing phase of the planner never produces a window wider than
`page_size` (for a non-negative `page_size`), and the two boundary
adjustment loops never widen it, so the returned `limit` is at most
`page_size`. -/
theorem pageFromBounds_limit_le (keys : List ℤ) (P idx prev next : ℤ) (hP : 0 ≤ P) :
    (pageFromBounds keys P idx prev next).1 ≤ P := by
  unfold pageFromBounds
  set sized := if P < next - prev then shrinkLoop (next - prev - P).toNat idx P prev next
    else if next - prev < P then growLoop (P - (next - prev)).toNat P prev next
    else (prev, next) with hsized
  have hsz : sized.2 - sized.1 ≤ P := by
    rw [hsized]
    split
    · exact shrinkLoop_gap_le _ idx P prev next hP (by
        have := Int.self_le_toNat (next - prev - P)
        omega)
    · split
      · exact growLoop_gap_le _ P prev next (by omega)
      · show next - prev ≤ P
        omega
  have hsk := skipUp_gap keys.length keys sized.1 sized.2
  have hsl := slideDown_gap_le keys.length keys
    (skipUp keys keys.length sized.1 sized.2).1 (skipUp keys keys.length sized.1 sized.2).2
  simp only []
  omega

/-- The fourth planner loop exits only when `next_item` is not a cached key,
so the exclusive upper boundary `offset + limit` of the returned window is
never a cached index. -/
theorem pageFromBounds_top_not_mem (keys : List ℤ) (P idx prev next : ℤ) :
    (pageFromBounds keys P idx prev next).2 + (pageFromBounds keys P idx prev next).1 ∉ keys := by
  unfold pageFromBounds
  set sized := if P < next - prev then shrinkLoop (next - prev - P).toNat idx P prev next
    else if next - prev < P then growLoop (P - (next - prev)).toNat P prev next
    else (prev, next) with hsized
  have hnm := slideDown_snd_not_mem keys.length keys
    (skipUp keys keys.length sized.1 sized.2).1 (skipUp keys keys.length sized.1 sized.2).2
    (countLe_le_length keys _)
  simp only []
  have : (slideDown keys keys.length (skipUp keys keys.length sized.1 sized.2).1
      (skipUp keys keys.length sized.1 sized.2).2).1
      + ((slideDown keys keys.length (skipUp keys keys.length sized.1 sized.2).1
        (skipUp keys keys.length sized.1 sized.2).2).2
        - (slideDown keys keys.length (skipUp keys keys.length sized.1 sized.2).1
          (skipUp keys keys.length sized.1 sized.2).2).1)
      = (slideDown keys keys.length (skipUp keys keys.length sized.1 sized.2).1
        (skipUp keys keys.length sized.1 sized.2).2).2 := by omega
  rw [this]
  exact hnm

/-! ### Helper lemmas: the cache dictionary -/

theorem pyGet_nil {α : Type} (k : ℤ) : pyGet ([] : List (ℤ × α)) k = none := rfl

theorem pyGet_cons {α : Type} (a : ℤ) (b : α) (rest : List (ℤ × α)) (k : ℤ) :
    pyGet ((a, b) :: rest) k = if k = a then some b else pyGet rest k := rfl

theorem pyGet_map_replace_ne {α : Type} (l : List (ℤ × α)) (k k' : ℤ) (v : α) (h : k' ≠ k) :
    pyGet (l.map (fun p => if p.1 = k then (k, v) else p)) k' = pyGet l k' := by
  induction l with
  | nil => rfl
  | cons p rest ih =>
    obtain ⟨a, b⟩ := p
    simp only [List.map_cons]
    by_cases hp : a = k
    · rw [if_pos (show ((a, b) : ℤ × α).1 = k from hp), pyGet_cons, pyGet_cons,
        if_neg h, if_neg (show ¬ k' = a by rw [hp]; exact h), ih]
    · rw [if_neg (show ¬ ((a, b) : ℤ × α).1 = k from hp), pyGet_cons, pyGet_cons]
      by_cases hk : k' = a
      · rw [if_pos hk, if_pos hk]
      · rw [if_neg hk, if_neg hk, ih]

theorem pyGet_map_replace_mem {α : Type} (l : List (ℤ × α)) (k k' : ℤ) (v : α)
    (h : l.any (fun p => p.1 = k) = true) :
    pyGet (l.map (fun p => if p.1 = k then (k, v) else p)) k'
      = if k' = k then some v else pyGet l k' := by
  induction l with
  | nil => simp at h
  | cons p rest ih =>
    obtain ⟨a, b⟩ := p
    simp only [List.map_cons]
    by_cases hp : a = k
    · rw [if_pos (show ((a, b) : ℤ × α).1 = k from hp), pyGet_cons]
      by_cases hk : k' = k
      · rw [if_pos hk, if_pos hk]
      · rw [if_neg hk, if_neg hk, pyGet_map_replace_ne rest k k' v hk,
          pyGet_cons, if_neg (show ¬ k' = a by rw [hp]; exact hk)]
    · have h2 : rest.any (fun p => p.1 = k) = true := by
        simpa [List.any_cons, hp] using h
      rw [if_neg (show ¬ ((a, b) : ℤ × α).1 = k from hp), pyGet_cons, pyGet_cons]
      by_cases hk : k' = a
      · rw [if_pos hk, if_pos hk, if_neg (show ¬ k' = k by rw [hk]; exact hp)]
      · rw [if_neg hk, if_neg hk, ih h2]

theorem pyGet_append_new {α : Type} (l : List (ℤ × α)) (k k' : ℤ) (v : α)
    (h : l.any (fun p => p.1 = k) = false) :
    pyGet (l ++ [(k, v)]) k' = if k' = k then some v else pyGet l k' := by
  induction l with
  | nil =>
    rw [List.nil_append, pyGet_cons, pyGet_nil]
  | cons p rest ih =>
    obtain ⟨a, b⟩ := p
    have h1 : ¬ a = k := by
      intro hak
      simp [List.any_cons, hak] at h
    have h2 : rest.any (fun p => p.1 = k) = false := by
      simpa [List.any_cons, h1] using h
    rw [List.cons_append, pyGet_cons, pyGet_cons]
    by_cases hk : k' = a
    · rw [if_pos hk, if_pos hk, if_neg (show ¬ k' = k by rw [hk]; exact h1)]
    · rw [if_neg hk, if_neg hk, ih h2]

/-- Dict assignment behaves as expected under lookup: the assigned key maps
to the new value, every other key is untouched. -/
theorem pyGet_dictInsert {α : Type} (l : List (ℤ × α)) (k k' : ℤ) (v : α) :
    pyGet (dictInsert l k v) k' = if k' = k then some v else pyGet l k' := by
  unfold dictInsert
  by_cases h : l.any (fun p => p.1 = k) = true
  · rw [if_pos h]
    exact pyGet_map_replace_mem l k k' v h
  · rw [if_neg h]
    refine pyGet_append_new l k k' v ?_
    cases hb : l.any (fun p => p.1 = k)
    · rfl
    · exact absurd hb h

/-- `storeData` never touches keys below the write offset. -/
theorem pyGet_storeData_lt {α : Type} : ∀ (data : List α) (l : List (ℤ × α)) (off k : ℤ),
    k < off → pyGet (storeData l off data) k = pyGet l k
  | [], _, _, _, _ => rfl
  | x :: xs, l, off, k, h => by
    simp only [storeData]
    rw [pyGet_storeData_lt xs (dictInsert l off x) (off + 1) k (by omega),
      pyGet_dictInsert, if_neg (by omega)]

/-- After `storeData`, position `j` of the payload is cached at absolute
index `off + j`. -/
theorem pyGet_storeData_get {α : Type} : ∀ (data : List α) (l : List (ℤ × α)) (off : ℤ) (j : ℕ),
    j < data.length → pyGet (storeData l off data) (off + (j : ℤ)) = data[j]?
  | [], _, _, j, h => by simp at h
  | x :: xs, l, off, 0, _ => by
    simp only [storeData, Nat.cast_zero, add_zero]
    rw [pyGet_storeData_lt xs (dictInsert l off x) (off + 1) off (by omega),
      pyGet_dictInsert, if_pos rfl]
    simp
  | x :: xs, l, off, j + 1, h => by
    simp only [storeData]
    rw [show off + ((j + 1 : ℕ) : ℤ) = (off + 1) + (j : ℤ) by push_cast; ring,
      pyGet_storeData_get xs (dictInsert l off x) (off + 1) j (by
        simpa using Nat.lt_of_succ_lt_succ h)]
    simp

/-- Dict assignment never removes keys. -/
theorem mem_dictKeys_dictInsert {α : Type} (l : List (ℤ × α)) (k k' : ℤ) (v : α)
    (h : k' ∈ dictKeys l) : k' ∈ dictKeys (dictInsert l k v) := by
  unfold dictInsert
  split
  · have hkeys : dictKeys (l.map (fun p => if p.1 = k then (k, v) else p)) = dictKeys l := by
      unfold dictKeys
      rw [List.map_map]
      congr 1
      funext p
      by_cases hp : p.1 = k
      · simp [hp]
      · simp [hp]
    rw [hkeys]
    exact h
  · unfold dictKeys at h ⊢
    rw [List.map_append]
    exact List.mem_append_left _ h

/-- `storeData` never removes keys. -/
theorem mem_dictKeys_storeData {α : Type} : ∀ (data : List α) (l : List (ℤ × α)) (off k : ℤ),
    k ∈ dictKeys l → k ∈ dictKeys (storeData l off data)
  | [], _, _, _, h => h
  | x :: xs, l, off, k, h =>
    mem_dictKeys_storeData xs (dictInsert l off x) (off + 1) k
      (mem_dictKeys_dictInsert l off k x h)

/-- The slice fetch loop never removes keys, whether it succeeds or aborts
on a failed chunk. -/
theorem mem_dictKeys_sliceFetches {α : Type} :
    ∀ (offs : List ℤ) (f : Fetcher α) (s : PagState α) (k : ℤ),
    k ∈ dictKeys s.loaded → k ∈ dictKeys (sliceFetches f s offs).2.1.loaded
  | [], _, _, _, h => h
  | off :: rest, f, s, k, h => by
    simp only [sliceFetches]
    cases hf : f off s.pageSize with
    | error e => exact h
    | ok r =>
      have hrec := mem_dictKeys_sliceFetches rest f
        { s with loaded := storeData s.loaded off r.data, count := some r.count } k
        (mem_dictKeys_storeData r.data s.loaded off k h)
      dsimp only
      exact hrec

/-- `slicePost` only repackages the result: the state is the fetch loop's. -/
theorem slicePost_state {α : Type} (sliced : List ℤ)
    (pr : Except PagErr Unit × PagState α × ℕ) :
    (slicePost sliced pr).2.1 = pr.2.1 := by
  rcases pr with ⟨res, s', n⟩
  cases res with
  | error e => rfl
  | ok u =>
    dsimp only [slicePost]
    cases hco : collectItems s'.loaded sliced <;> rfl

/-- The whole slice path never removes keys from the cache. -/
theorem mem_dictKeys_getSlice {α : Type} (f : Fetcher α) (s : PagState α)
    (start stop : ℤ) (step : Option ℤ) (k : ℤ) (h : k ∈ dictKeys s.loaded) :
    k ∈ dictKeys (getSlice f s start stop step).2.1.loaded := by
  unfold getSlice
  dsimp only
  split
  · rw [slicePost_state]
    exact mem_dictKeys_sliceFetches _ f s k h
  · split <;> exact h

/-! ### Helper lemmas: the access operations -/

/-- A cached index is returned immediately, with no fetch and no state
change. -/
theorem getItem_cached {α : Type} (f : Fetcher α) (s : PagState α) (k : ℤ) (v : α)
    (h : pyGet s.loaded k = some v) :
    getItem f s k = (Except.ok v, s, 0) := by
  unfold getItem
  rw [h]

/-- If a `get` succeeds, an immediate second `get` of the same index returns
the same value from the state the first call produced, with zero fetches. -/
theorem getItem_ok_again {α : Type} (f : Fetcher α) (s : PagState α) (k : ℤ) (v : α)
    (h : (getItem f s k).1 = Except.ok v) :
    getItem f (getItem f s k).2.1 k = (Except.ok v, (getItem f s k).2.1, 0) := by
  cases h1 : pyGet s.loaded k with
  | some w =>
    have hv : w = v := by
      simp only [getItem, h1, Except.ok.injEq] at h
      exact h
    subst hv
    simp only [getItem, h1]
  | none =>
    cases h2 : pyGetBestPage (dictKeys s.loaded) s.pageSize k with
    | none =>
      simp [getItem, h1, h2] at h
    | some pr =>
      obtain ⟨limit, offset⟩ := pr
      cases h3 : f offset limit with
      | error e =>
        simp [getItem, h1, h2, h3] at h
      | ok r =>
        cases h4 : pyGet (storeData s.loaded offset r.data) k with
        | none =>
          simp [getItem, h1, h2, h3, h4] at h
        | some w =>
          have hv : w = v := by
            simp only [getItem, h1, h2, h3, h4, Except.ok.injEq] at h
            exact h
          subst hv
          simp only [getItem, h1, h2, h3, h4]

/-- A `get` whose fetch fails leaves the state exactly unchanged. -/
theorem getItem_upstream_state {α : Type} (f : Fetcher α) (s : PagState α) (k : ℤ)
    (h : (getItem f s k).1 = Except.error PagErr.upstream) :
    (getItem f s k).2.1 = s := by
  cases h1 : pyGet s.loaded k with
  | some w =>
    simp [getItem, h1] at h
  | none =>
    cases h2 : pyGetBestPage (dictKeys s.loaded) s.pageSize k with
    | none =>
      simp [getItem, h1, h2]
    | some pr =>
      obtain ⟨limit, offset⟩ := pr
      cases h3 : f offset limit with
      | error e =>
        simp [getItem, h1, h2, h3]
      | ok r =>
        cases h4 : pyGet (storeData s.loaded offset r.data) k with
        | none =>
          simp [getItem, h1, h2, h3, h4] at h
        | some w =>
          simp [getItem, h1, h2, h3, h4] at h

/-- A `next` whose fetch fails leaves the state exactly unchanged (in
particular the cursor does not advance). -/
theorem nextItem_upstream_state {α : Type} (f : Fetcher α) (s : PagState α)
    (h : (nextItem f s).1 = Except.error PagErr.upstream) :
    (nextItem f s).2.1 = s := by
  cases h1 : pyGet s.loaded s.iterCurrent with
  | some w =>
    simp [nextItem, h1] at h
  | none =>
    cases h2 : pyGetBestPage (dictKeys s.loaded) s.pageSize s.iterCurrent with
    | none =>
      simp [nextItem, h1, h2]
    | some pr =>
      obtain ⟨limit, offset⟩ := pr
      cases h3 : f offset limit with
      | error e =>
        simp [nextItem, h1, h2, h3]
      | ok r =>
        cases h4 : pyGet (storeData s.loaded offset r.data) s.iterCurrent with
        | none =>
          simp [nextItem, h1, h2, h3, h4] at h
        | some w =>
          simp [nextItem, h1, h2, h3, h4] at h

/-- A `count` whose fetch fails leaves the state exactly unchanged. -/
theorem countOp_upstream_state {α : Type} (f : Fetcher α) (s : PagState α)
    (h : (countOp f s).1 = Except.error CountErr.upstream) :
    (countOp f s).2.1 = s := by
  cases h1 : s.count with
  | some c =>
    simp [countOp, h1] at h
  | none =>
    by_cases h2 : s.loaded.length ≠ 0
    · simp [countOp, h1, if_pos h2]
    · cases h3 : f 0 s.pageSize with
      | error e =>
        simp [countOp, h1, if_neg h2, h3]
      | ok r =>
        simp [countOp, h1, if_neg h2, h3] at h

/-- With a known `_count`, the `count` property returns it with no fetch. -/
theorem countOp_known {α : Type} (f : Fetcher α) (s : PagState α) (c : ℤ)
    (h : s.count = some c) : countOp f s = (Except.ok c, s, 0) := by
  unfold countOp
  rw [h]

/-- Before any access (empty cache, unknown count), `count` makes exactly one
fetch of `[0, page_size)` and returns the count from its metadata,
incidentally caching the items that arrived. -/
theorem countOp_init {α : Type} (f : Fetcher α) (P : ℤ) (r : FetchResult α)
    (h : f 0 P = Except.ok r) :
    countOp f (initState P) =
      (Except.ok r.count,
        { loaded := storeData [] 0 r.data, count := some r.count,
          iterCurrent := 0, pageSize := P }, 1) := by
  simp only [countOp, initState, List.length_nil, ne_eq, not_true_eq_false, if_false, h]

/-- On every state, `count` dispatches at most one fetch: it is never a
fetch-and-count-everything loop. -/
theorem countOp_fetches_le {α : Type} (f : Fetcher α) (s : PagState α) :
    (countOp f s).2.2 ≤ 1 := by
  cases hc : s.count with
  | some c =>
    simp only [countOp, hc]
    omega
  | none =>
    by_cases h2 : s.loaded.length ≠ 0
    · simp only [countOp, hc, if_pos h2]
      omega
    · cases h3 : f 0 s.pageSize with
      | error e =>
        simp only [countOp, hc, if_neg h2, h3]
        omega
      | ok r =>
        simp only [countOp, hc, if_neg h2, h3]
        omega

/-- The empty-cache planner: `prev = next = item_index = 0`, so the grow loop
runs with `prev` pinned at 0 and the window is `[0, P)` whatever the
requested index was. -/
theorem pageFromBounds_empty (P : ℤ) (hP : 0 ≤ P) :
    pageFromBounds [] P 0 0 0 = (P, 0) := by
  unfold pageFromBounds
  dsimp only [List.length_nil, skipUp, slideDown]
  rw [if_neg (show ¬ P < 0 - 0 by omega)]
  by_cases h0 : (0 : ℤ) - 0 < P
  · rw [if_pos h0,
      growLoop_from_zero ((P - (0 - 0)).toNat) P 0 (by omega)
        (by have := Int.self_le_toNat (P - (0 - 0)); omega)]
    simp
  · rw [if_neg h0]
    have hP0 : P = 0 := by omega
    subst hP0
    rfl

/-- On an empty cache the planner returns `(limit, offset) = (P, 0)`
regardless of the requested index. -/
theorem getBestPage_empty (item P : ℤ) (hP : 0 ≤ P) :
    getBestPage [] P item = (P, 0) := by
  unfold getBestPage
  have hsort : sortedWithItem [] item = [item] := rfl
  rw [hsort]
  dsimp only
  rw [List.indexOf_cons_self]
  norm_num
  exact pageFromBounds_empty P hP

/-- Evaluation of `slice(2, 5)` on a fresh object: one fetch of
`(offset 2, limit 50)`; the source materialises the inclusive range
`[2, 3, 4, 5]` and returns those four items. -/
theorem getSlice_two_five {α : Type} (f : Fetcher α) (d0 d1 d2 d3 : α)
    (data : List α) (c : ℤ)
    (hf : f 2 50 = Except.ok ⟨d0 :: d1 :: d2 :: d3 :: data, c⟩) :
    getSlice f (initState 50) 2 5 none
      = (Except.ok [d0, d1, d2, d3],
         { loaded := storeData [] 2 (d0 :: d1 :: d2 :: d3 :: data), count := some c,
           iterCurrent := 0, pageSize := 50 }, 1) := by
  have h1 : getSlice f (initState 50) 2 5 none
      = slicePost [2, 3, 4, 5] (sliceFetches f (initState 50) [2]) := rfl
  have h2 : sliceFetches f (initState 50) [2]
      = (Except.ok (),
         { loaded := storeData [] 2 (d0 :: d1 :: d2 :: d3 :: data), count := some c,
           iterCurrent := 0, pageSize := 50 }, 1) := by
    simp only [sliceFetches, initState, hf]
  have e2 : pyGet (storeData ([] : List (ℤ × α)) 2 (d0 :: d1 :: d2 :: d3 :: data)) 2
      = some d0 := by
    show pyGet (storeData [(2, d0), (3, d1), (4, d2), (5, d3)] 6 data) 2 = some d0
    rw [pyGet_storeData_lt data _ 6 2 (by omega)]
    rfl
  have e3 : pyGet (storeData ([] : List (ℤ × α)) 2 (d0 :: d1 :: d2 :: d3 :: data)) 3
      = some d1 := by
    show pyGet (storeData [(2, d0), (3, d1), (4, d2), (5, d3)] 6 data) 3 = some d1
    rw [pyGet_storeData_lt data _ 6 3 (by omega)]
    rfl
  have e4 : pyGet (storeData ([] : List (ℤ × α)) 2 (d0 :: d1 :: d2 :: d3 :: data)) 4
      = some d2 := by
    show pyGet (storeData [(2, d0), (3, d1), (4, d2), (5, d3)] 6 data) 4 = some d2
    rw [pyGet_storeData_lt data _ 6 4 (by omega)]
    rfl
  have e5 : pyGet (storeData ([] : List (ℤ × α)) 2 (d0 :: d1 :: d2 :: d3 :: data)) 5
      = some d3 := by
    show pyGet (storeData [(2, d0), (3, d1), (4, d2), (5, d3)] 6 data) 5 = some d3
    rw [pyGet_storeData_lt data _ 6 5 (by omega)]
    rfl
  rw [h1, h2]
  dsimp only [slicePost]
  have hc : collectItems
      (storeData ([] : List (ℤ × α)) 2 (d0 :: d1 :: d2 :: d3 :: data)) [2, 3, 4, 5]
      = some [d0, d1, d2, d3] := by
    simp only [collectItems, e2, e3, e4, e5, Option.map]
  rw [hc]

/-- Starting from the initial module state (`last_request = None`), every
gate call sleeps 0 and leaves `last_request` still `None`: the throttle
never engages. -/
theorem gateRun_from_none (times : List ℤ) :
    gateRun none times = (times.map (fun _ => (0 : ℤ)), none) := by
  induction times with
  | nil => rfl
  | cons t rest ih =>
    simp only [gateRun, gateStep, ih, List.map_cons]

/-- An upstream that always fails (every request gets a non-success
status). -/
def failFetch : Fetcher ℕ :=
  fun _ _ => Except.error ()

/-- An upstream whose first page (offset 0) succeeds with items `0..49` and
total count 1000, and whose every other request fails. -/
def failAt50Fetch : Fetcher ℕ :=
  fun off _ =>
    if off = 0 then Except.ok ⟨(pyRange 0 50 1).map Int.toNat, 1000⟩
    else Except.error ()

/-- The cache state of Scenario C / claim C6: indices `{0..9} ∪ {60..69}`
are cached. -/
def cacheC : List ℤ :=
  ((List.range 10).map Int.ofNat) ++ ((List.range 10).map (fun n => (60 : ℤ) + n))


/-! ### Claims -/

/-- C1 (counterexample).  The planner containment invariant
`offset ≤ i < offset + limit` fails as stated: on an empty cache with
`page_size = 50` the uncached index 50 gets the window
`(limit, offset) = (50, 0)`, and `50 < 0 + 50` is false. -/
theorem planner_containment_cex :
    (50 : ℤ) ∉ ([] : List ℤ) ∧
    getBestPage [] 50 50 = (50, 0) ∧
    ¬ ((getBestPage [] 50 50).2 ≤ 50 ∧
        (50 : ℤ) < (getBestPage [] 50 50).2 + (getBestPage [] 50 50).1) := by
  refine ⟨by decide, rfl, ?_⟩
  rw [show getBestPage [] 50 50 = (50, 0) from rfl]
  decide

/-- C1 (amended).  For every cache state and uncached target index, with a
non-negative `page_size`, the planner returns a window with
`limit ≤ page_size`; the containment `offset ≤ i < offset + limit` of the
original claim does not hold in general (see `planner_containment_cex`). -/
theorem planner_limit_le (keys : List ℤ) (P item : ℤ)
    (hmem : item ∉ keys) (hP : 0 ≤ P) :
    pyGetBestPage keys P item = some (getBestPage keys P item) ∧
    (getBestPage keys P item).1 ≤ P := by
  constructor
  · unfold pyGetBestPage
    rw [if_neg hmem]
  · exact pageFromBounds_limit_le keys P _ _ _ hP

theorem planner_limit_le_witness :
    pyGetBestPage [] 50 57 = some (getBestPage [] 50 57) ∧
    (getBestPage [] 50 57).1 ≤ 50 :=
  planner_limit_le [] 50 57 (by decide) (by decide)

/-- C2 (code bug).  `prevent_ratelimit` assigns `last_request` only inside
the branch guarded by `last_request` already being set; since the module
initialises it to `None`, every call from process start onwards sleeps 0 ms
and records nothing, so no spacing between dispatches is ever enforced. -/
theorem rate_gate_noop :
    (∀ (times : List ℤ), gateRun none times = (times.map (fun _ => (0 : ℤ)), none)) ∧
    (∀ (now : ℤ), gateStep now none = Except.ok (0, none)) :=
  ⟨gateRun_from_none, fun _ => rfl⟩

/-- C3 (counterexample).  Two sequential `get(57)` calls on a fresh object
(page size 50, well-behaved upstream): the first fetch succeeds but its
window `[0, 50)` misses 57, so the first call raises `KeyError` while the
second call fetches again and succeeds — two fetches in total and different
outcomes. -/
theorem get_twice_two_fetches_cex :
    (getItem gFetch (initState 50) 57).1 = Except.error PagErr.keyError ∧
    (getItem gFetch (getItem gFetch (initState 50) 57).2.1 57).1 = Except.ok 57 ∧
    (getItem gFetch (initState 50) 57).2.2
      + (getItem gFetch (getItem gFetch (initState 50) 57).2.1 57).2.2 = 2 :=
  ⟨rfl, rfl, rfl⟩

/-- C3 (amended).  A cached index is returned with zero fetches and no state
change; and whenever a `get(i)` call returns successfully, an immediately
repeated `get(i)` returns the same value with zero further fetches (so a
successful first call caps the pair at one fetch).  The unqualified claim
fails when the first call's window misses `i`
(see `get_twice_two_fetches_cex`). -/
theorem get_idempotent_amended :
    (∀ (α : Type) (f : Fetcher α) (s : PagState α) (k : ℤ) (v : α),
        pyGet s.loaded k = some v → getItem f s k = (Except.ok v, s, 0)) ∧
    (∀ (α : Type) (f : Fetcher α) (s : PagState α) (k : ℤ) (v : α),
        (getItem f s k).1 = Except.ok v →
        getItem f (getItem f s k).2.1 k = (Except.ok v, (getItem f s k).2.1, 0)) :=
  ⟨fun _ f s k v h => getItem_cached f s k v h,
   fun _ f s k v h => getItem_ok_again f s k v h⟩

theorem get_idempotent_amended_witness :
    (getItem gFetch (initState 50) 3).1 = Except.ok 3 ∧
    getItem gFetch (getItem gFetch (initState 50) 3).2.1 3
      = (Except.ok 3, (getItem gFetch (initState 50) 3).2.1, 0) :=
  ⟨rfl, get_idempotent_amended.2 ℕ gFetch (initState 50) 3 3 rfl⟩

/-- C4 (counterexample).  A slice spanning two page-sized chunks whose second
chunk fails: `slice(0, 60)` against an upstream that serves offset 0 but
fails offset 50 surfaces the upstream error, yet leaves 50 items and a
total count in the cache — not the untouched pre-call state. -/
theorem slice_partial_cache_cex :
    (getSlice failAt50Fetch (initState 50) 0 60 none).1 = Except.error PagErr.upstream ∧
    (getSlice failAt50Fetch (initState 50) 0 60 none).2.2 = 2 ∧
    (getSlice failAt50Fetch (initState 50) 0 60 none).2.1.loaded.length = 50 ∧
    (initState 50 : PagState ℕ).loaded.length = 0 ∧
    (getSlice failAt50Fetch (initState 50) 0 60 none).2.1.count = some 1000 ∧
    (initState 50 : PagState ℕ).count = none :=
  ⟨rfl, rfl, rfl, rfl, rfl, rfl⟩

/-- C4 (amended).  A failed fetch adds nothing itself: `get`, `iterate` and
`count` leave the state exactly as before the call when their (single)
fetch fails, and the slice path never removes cache entries — but a
multi-chunk slice keeps the chunks fetched before the failure
(see `slice_partial_cache_cex`), so for `slice` the cache is not always
byte-for-byte unchanged. -/
theorem failed_fetch_state_amended :
    (∀ (α : Type) (f : Fetcher α) (s : PagState α) (k : ℤ),
        (getItem f s k).1 = Except.error PagErr.upstream → (getItem f s k).2.1 = s) ∧
    (∀ (α : Type) (f : Fetcher α) (s : PagState α),
        (nextItem f s).1 = Except.error PagErr.upstream → (nextItem f s).2.1 = s) ∧
    (∀ (α : Type) (f : Fetcher α) (s : PagState α),
        (countOp f s).1 = Except.error CountErr.upstream → (countOp f s).2.1 = s) ∧
    (∀ (α : Type) (f : Fetcher α) (s : PagState α) (start stop : ℤ)
        (step : Option ℤ) (k : ℤ),
        k ∈ dictKeys s.loaded → k ∈ dictKeys (getSlice f s start stop step).2.1.loaded) :=
  ⟨fun _ f s k h => getItem_upstream_state f s k h,
   fun _ f s h => nextItem_upstream_state f s h,
   fun _ f s h => countOp_upstream_state f s h,
   fun _ f s start stop step k h => mem_dictKeys_getSlice f s start stop step k h⟩

/-- A one-entry cache state used by the witnesses. -/
def oneItemState : PagState ℕ :=
  { loaded := [(0, 5)], count := some 1, iterCurrent := 0, pageSize := 50 }

theorem failed_fetch_state_amended_witness :
    (getItem failFetch (initState 50) 0).1 = Except.error PagErr.upstream ∧
    (getItem failFetch (initState 50) 0).2.1 = (initState 50 : PagState ℕ) ∧
    (nextItem failFetch (initState 50)).2.1 = (initState 50 : PagState ℕ) ∧
    (countOp failFetch (initState 50)).2.1 = (initState 50 : PagState ℕ) ∧
    (0 : ℤ) ∈ dictKeys (getSlice failFetch oneItemState 0 3 none).2.1.loaded :=
  ⟨rfl,
   failed_fetch_state_amended.1 ℕ failFetch (initState 50) 0 rfl,
   failed_fetch_state_amended.2.1 ℕ failFetch (initState 50) rfl,
   failed_fetch_state_amended.2.2.1 ℕ failFetch (initState 50) rfl,
   failed_fetch_state_amended.2.2.2 ℕ failFetch oneItemState 0 3 none 0 (by decide)⟩

/-- C5 (counterexample).  `slice(2, 5)` on a fresh object returns the items
for indices 2, 3, 4 *and 5* — four items, not the three the claim states —
because the source builds `range(key.start, key.stop + 1, ...)`. -/
theorem slice_two_five_cex :
    (getSlice gFetch (initState 50) 2 5 none).1 = Except.ok [2, 3, 4, 5] ∧
    ([2, 3, 4, 5] : List ℕ) ≠ [2, 3, 4] :=
  ⟨rfl, by decide⟩

/-- C5 (amended).  `slice(2, 5)` on an empty cache issues exactly one fetch,
of the page-sized window `(offset 2, limit 50)`, and returns the items for
indices 2, 3, 4, 5 in order (the source treats the stop bound
inclusively). -/
theorem slice_two_five_amended (α : Type) (f : Fetcher α) (d0 d1 d2 d3 : α)
    (data : List α) (c : ℤ)
    (hf : f 2 50 = Except.ok ⟨d0 :: d1 :: d2 :: d3 :: data, c⟩) :
    getSlice f (initState 50) 2 5 none
      = (Except.ok [d0, d1, d2, d3],
         { loaded := storeData [] 2 (d0 :: d1 :: d2 :: d3 :: data), count := some c,
           iterCurrent := 0, pageSize := 50 }, 1) :=
  getSlice_two_five f d0 d1 d2 d3 data c hf

theorem slice_two_five_amended_witness :
    gFetch 2 50
      = Except.ok ⟨2 :: 3 :: 4 :: 5 :: ((pyRange 6 52 1).map Int.toNat), 1000⟩ ∧
    getSlice gFetch (initState 50) 2 5 none
      = (Except.ok [2, 3, 4, 5],
         { loaded := storeData [] 2 (2 :: 3 :: 4 :: 5 :: ((pyRange 6 52 1).map Int.toNat)),
           count := some 1000, iterCurrent := 0, pageSize := 50 }, 1) :=
  ⟨rfl, slice_two_five_amended ℕ gFetch 2 3 4 5 ((pyRange 6 52 1).map Int.toNat) 1000 rfl⟩

/-- C6 (counterexample).  On the cache `{0..9} ∪ {60..69}` with
`page_size = 50` and target 35, the planner returns
`(limit, offset) = (50, 9)`, and the lower boundary 9 *is* a cached index:
the fourth loop slid the window back onto a key the third loop had just
stepped off. -/
theorem planner_boundary_cex :
    getBestPage cacheC 50 35 = (50, 9) ∧
    (getBestPage cacheC 50 35).2 ∈ cacheC ∧
    (35 : ℤ) ∉ cacheC := by
  refine ⟨rfl, ?_, by decide⟩
  rw [show getBestPage cacheC 50 35 = (50, 9) from rfl]
  decide

/-- C6 (amended).  The planner's *exclusive upper* boundary
`offset + limit` (the source's final `next_item`) never coincides with a
cached index — that is what the last loop's exit condition guarantees — but
the lower boundary `offset` can (see `planner_boundary_cex`). -/
theorem planner_upper_boundary_amended (keys : List ℤ) (P item : ℤ) :
    (getBestPage keys P item).2 + (getBestPage keys P item).1 ∉ keys :=
  pageFromBounds_top_not_mem keys P _ _ _

/-- C7 (counterexample).  On an empty cache the planner does *not* return
`offset = i`: for `i = 1`, `page_size = 50` it returns
`(limit, offset) = (50, 0)`, because the source uses the sorted *position*
(0) of the item, not the item itself, as the window seed. -/
theorem planner_empty_cache_cex :
    getBestPage [] 50 1 = (50, 0) ∧ (getBestPage [] 50 1).2 ≠ 1 := by
  refine ⟨rfl, ?_⟩
  rw [show getBestPage [] 50 1 = (50, 0) from rfl]
  decide

/-- C7 (amended).  On an empty cache the planner returns the window
`[0, P)` regardless of the requested index; for `i = 0` this coincides with
the claimed `[i, i + P)`, i.e. `(offset 0, limit 50)`, and after a
successful `get(0)` the cache holds exactly the indices 0–49. -/
theorem planner_empty_cache_amended :
    (∀ (item P : ℤ), 0 ≤ P → getBestPage [] P item = (P, 0)) ∧
    (getItem gFetch (initState 50) 0).1 = Except.ok 0 ∧
    (getItem gFetch (initState 50) 0).2.2 = 1 ∧
    dictKeys (getItem gFetch (initState 50) 0).2.1.loaded
      = (List.range 50).map Int.ofNat :=
  ⟨getBestPage_empty, rfl, rfl, rfl⟩

theorem planner_empty_cache_amended_witness :
    getBestPage [] 50 7 = (50, 0) :=
  planner_empty_cache_amended.1 7 50 (by decide)

/-- C8 (confirmed).  `count` returns the stored total with zero fetches when
it is known; before any access (fresh state) it issues exactly one fetch of
`[0, page_size)` and returns the metadata count while caching the arrived
items; and on every state it dispatches at most one fetch — it never counts
by fetching everything. -/
theorem count_fetch_policy :
    (∀ (α : Type) (f : Fetcher α) (s : PagState α) (c : ℤ),
        s.count = some c → countOp f s = (Except.ok c, s, 0)) ∧
    (∀ (α : Type) (f : Fetcher α) (P : ℤ) (r : FetchResult α),
        f 0 P = Except.ok r →
        countOp f (initState P)
          = (Except.ok r.count,
             { loaded := storeData [] 0 r.data, count := some r.count,
               iterCurrent := 0, pageSize := P }, 1)) ∧
    (∀ (α : Type) (f : Fetcher α) (s : PagState α), (countOp f s).2.2 ≤ 1) :=
  ⟨fun _ f s c h => countOp_known f s c h,
   fun _ f P r h => countOp_init f P r h,
   fun _ f s => countOp_fetches_le f s⟩

/-- A state with a known count used by the witnesses. -/
def knownCountState : PagState ℕ :=
  { loaded := [], count := some 7, iterCurrent := 0, pageSize := 50 }

theorem count_fetch_policy_witness :
    countOp gFetch knownCountState = (Except.ok 7, knownCountState, 0) ∧
    countOp gFetch (initState 50)
      = (Except.ok 1000,
         { loaded := storeData [] 0 ((pyRange 0 50 1).map Int.toNat),
           count := some 1000, iterCurrent := 0, pageSize := 50 }, 1) :=
  ⟨count_fetch_policy.1 ℕ gFetch knownCountState 7 rfl,
   count_fetch_policy.2.1 ℕ gFetch 50 ⟨(pyRange 0 50 1).map Int.toNat, 1000⟩ rfl⟩

/-- C9 (confirmed).  With exactly `{0..49}` cached and `page_size = 50`, the
planner for target 57 returns the window `(offset = 50, limit = 50)` —
Scenario B holds on the code as written. -/
theorem planner_scenario_b :
    getBestPage ((List.range 50).map Int.ofNat) 50 57 = (50, 50) := rfl

/-- C10 (confirmed).  On an empty cache, `get(57)` (57 ≥ page size 50) plans
the window `(limit 50, offset 0)`, whose span `[0, 50)` does not reach 57;
the fetch itself succeeds (the error is `KeyError`, not the upstream
error, after exactly one dispatched fetch), and the final
`self._loaded_items[57]` lookup escapes as an uncaught `KeyError`. -/
theorem get_keyerror_escape :
    (getItem gFetch (initState 50) 57).1 = Except.error PagErr.keyError ∧
    (getItem gFetch (initState 50) 57).2.2 = 1 ∧
    getBestPage [] 50 57 = (50, 0) ∧
    (getBestPage [] 50 57).2 + (getBestPage [] 50 57).1 ≤ 57 := by
  refine ⟨rfl, rfl, rfl, ?_⟩
  rw [show getBestPage [] 50 57 = (50, 0) from rfl]
  decide
